import Mathlib

/-!
Verification of the membership-tracking moderation bot (src/bot.py).

The bot records a join timestamp for every non-bot user who joins a chat and,
when a user leaves, bans them if they left within `BAN_TIME_SECONDS` of
joining.  State lives in a JSON file: `load_users` parses it (missing or
corrupt file means empty mapping) and `save_users` rewrites it whole.

The embedding models the Python semantics that matter here faithfully:

* A Python dict is an insertion-ordered association list with distinct keys;
  a key is either an integer or a string (`PyKey`), and `1` and `"1"` are
  different keys.  Assigning to an existing key updates it in place,
  assigning a fresh key appends; `del` removes the entry; `get` on a missing
  key yields `none`.
* `json.dump` stringifies every key (the integer key `1` is written as the
  JSON key `"1"`), emitting entries in dict order; dicts holding both `1`
  and `"1"` produce duplicate JSON keys.  `json.load` builds a dict whose
  keys are all strings, later duplicates overwriting earlier values.
* Timestamps (`time.time()` results) are modelled as rationals; the code
  only subtracts and compares them.
* The two external calls (`ban_chat_member`, `send_message`) may each raise;
  the handler wraps both in one `try`/`except` that logs and swallows.  The
  model takes their outcomes as boolean inputs and records which calls were
  made with which arguments, and whether an exception escaped the handler.
-/

set_option autoImplicit false

namespace WhoLeave

/-- One stored entry: `{"join_time": ..., "chat_id": ...}` (src/bot.py
lines 84-87). -/
structure MembershipRecord where
  join_time : ℚ
  chat_id : Int
deriving DecidableEq, Repr

/-- A Python dict key as used by this program: an `int` (from `user.id`) or a
`str` (from JSON parsing).  They never compare equal to each other. -/
inductive PyKey where
  | pint : Int → PyKey
  | pstr : String → PyKey
deriving DecidableEq, Repr

/-- The in-memory `users` dict: insertion-ordered entries with distinct keys. -/
abbrev PyDict := List (PyKey × MembershipRecord)

/-- The persisted JSON object: ordered string-keyed entries as written by
`json.dump` (duplicate keys possible when a dict holds both `1` and `"1"`). -/
abbrev JsonObj := List (String × MembershipRecord)

/-- `str(key)` as applied by `json.dump`: integers print in decimal, strings
pass through. -/
def pyStr : PyKey → String
  | .pint n => toString n
  | .pstr s => s

/-- Dict lookup, `users.get(k)`. -/
def dictGet : PyDict → PyKey → Option MembershipRecord
  | [], _ => none
  | (k, v) :: t, k' => if k = k' then some v else dictGet t k'

/-- Dict assignment, `users[k] = v`: update in place if the key exists,
append otherwise. -/
def dictInsert : PyDict → PyKey → MembershipRecord → PyDict
  | [], k, v => [(k, v)]
  | (k0, v0) :: t, k, v =>
      if k0 = k then (k0, v) :: t else (k0, v0) :: dictInsert t k v

/-- Dict deletion, `del users[k]` (removes the entry with that key). -/
def dictErase : PyDict → PyKey → PyDict
  | [], _ => []
  | (k0, v0) :: t, k => if k0 = k then t else (k0, v0) :: dictErase t k

/-- `save_users` (src/bot.py lines 31-34): `json.dump` writes every entry in
dict order with its key stringified; the result is the new file content. -/
def save_users (users : PyDict) : JsonObj :=
  users.map fun kv => (pyStr kv.1, kv.2)

/-- `json.load` of an object: build a dict left to right; every JSON key is a
string, and a duplicate key overwrites the earlier value in place. -/
def loadObj (o : JsonObj) : PyDict :=
  o.foldl (fun d kv => dictInsert d (PyKey.pstr kv.1) kv.2) []

/-- `load_users` (src/bot.py lines 23-29): parse the file; a missing or
corrupt file (`none`) yields the empty mapping. -/
def load_users : Option JsonObj → PyDict
  | none => []
  | some o => loadObj o

/-- `BAN_TIME_SECONDS = 300` (src/bot.py line 21). -/
def BAN_TIME_SECONDS : ℚ := 300

/-- A chat-member update as consumed by `track_chat_members`. -/
structure ChatMemberEvent where
  user_id : Int
  is_bot : Bool
  old_status : String
  new_status : String
  chat_id : Int
deriving DecidableEq, Repr

/-- Outcome of the leave-evaluation code (src/bot.py lines 94-134) run on an
already-loaded dict: `written` is the object passed to `save_users` if any,
`banCall`/`notifyCall` record the arguments of the external calls that were
made, `banSucceeded`/`notifySucceeded` their outcomes, and `raised` whether
an exception escaped. -/
structure LeaveResult where
  written : Option JsonObj
  banCall : Option (Int × Int)
  banSucceeded : Bool
  notifyCall : Option Int
  notifySucceeded : Bool
  raised : Bool
deriving DecidableEq, Repr

/-- The leave branch of `track_chat_members` (src/bot.py lines 94-134), given
the loaded `users` dict and the outcomes of the two external calls
(`banOk`: `ban_chat_member` does not raise; `notifyOk`: `send_message` does
not raise).  Mirrors the source: look up `users.get(user.id)`; if absent,
return; else compute `time_diff`, delete and save unconditionally, and if
`time_diff < BAN_TIME_SECONDS` run `ban_chat_member` then `send_message`
inside one `try` whose `except` logs and swallows. -/
def evalLeave (users : PyDict) (user_id : Int) (now : ℚ) (chat_id : Int)
    (banOk notifyOk : Bool) : LeaveResult :=
  match dictGet users (PyKey.pint user_id) with
  | none =>
      { written := none, banCall := none, banSucceeded := false,
        notifyCall := none, notifySucceeded := false, raised := false }
  | some record =>
      let time_diff := now - record.join_time
      let users2 := dictErase users (PyKey.pint user_id)
      let written := some (save_users users2)
      if time_diff < BAN_TIME_SECONDS then
        if banOk then
          { written := written, banCall := some (chat_id, user_id),
            banSucceeded := true, notifyCall := some user_id,
            notifySucceeded := notifyOk, raised := false }
        else
          { written := written, banCall := some (chat_id, user_id),
            banSucceeded := false, notifyCall := none,
            notifySucceeded := false, raised := false }
      else
        { written := written, banCall := none, banSucceeded := false,
          notifyCall := none, notifySucceeded := false, raised := false }

/-- Outcome of one `track_chat_members` invocation: the resulting file state,
whether the store was read at all, and the external-call record. -/
structure HandlerResult where
  file : Option JsonObj
  storeAccessed : Bool
  banCall : Option (Int × Int)
  banSucceeded : Bool
  notifyCall : Option Int
  notifySucceeded : Bool
  raised : Bool
deriving DecidableEq, Repr

/-- `track_chat_members` (src/bot.py lines 63-136) on one event against the
current file state `file`, at wall-clock time `now`.  Bots are ignored
first; a `left`/`kicked` → `member` transition records a join; a
`member` → `left` transition runs the leave evaluation; anything else is
logged as irrelevant. -/
def track_chat_members (file : Option JsonObj) (ev : ChatMemberEvent)
    (now : ℚ) (banOk notifyOk : Bool) : HandlerResult :=
  if ev.is_bot then
    { file := file, storeAccessed := false, banCall := none,
      banSucceeded := false, notifyCall := none, notifySucceeded := false,
      raised := false }
  else if (ev.old_status = "left" ∨ ev.old_status = "kicked")
      ∧ ev.new_status = "member" then
    let users := load_users file
    let users2 := dictInsert users (PyKey.pint ev.user_id)
      { join_time := now, chat_id := ev.chat_id }
    { file := some (save_users users2), storeAccessed := true,
      banCall := none, banSucceeded := false, notifyCall := none,
      notifySucceeded := false, raised := false }
  else if ev.old_status = "member" ∧ ev.new_status = "left" then
    let r := evalLeave (load_users file) ev.user_id now ev.chat_id banOk notifyOk
    { file := r.written.elim file some, storeAccessed := true,
      banCall := r.banCall, banSucceeded := r.banSucceeded,
      notifyCall := r.notifyCall, notifySucceeded := r.notifySucceeded,
      raised := r.raised }
  else
    { file := file, storeAccessed := false, banCall := none,
      banSucceeded := false, notifyCall := none, notifySucceeded := false,
      raised := false }

/-! ### Helper lemmas about the dict model -/

/-- First-some choice on options: the semantics of "a later JSON duplicate
overwrites an earlier one" is expressed with the later part preferred. -/
def oor {α : Type} : Option α → Option α → Option α
  | some x, _ => some x
  | none, b => b

@[simp]
theorem oor_some {α : Type} (x : α) (b : Option α) : oor (some x) b = some x := rfl

@[simp]
theorem oor_none {α : Type} (b : Option α) : oor none b = b := rfl

theorem dictGet_append (l₁ l₂ : PyDict) (k : PyKey) :
    dictGet (l₁ ++ l₂) k = oor (dictGet l₁ k) (dictGet l₂ k) := by
  induction l₁ with
  | nil => simp [dictGet]
  | cons hd t ih =>
      cases hd with
      | mk k0 v0 =>
          by_cases h : k0 = k
          · simp [dictGet, h]
          · simp [dictGet, h, ih]

@[simp]
theorem dictGet_dictInsert_self (d : PyDict) (k : PyKey) (v : MembershipRecord) :
    dictGet (dictInsert d k v) k = some v := by
  induction d with
  | nil => simp [dictInsert, dictGet]
  | cons hd t ih =>
      cases hd with
      | mk k0 v0 =>
          by_cases h : k0 = k
          · simp [dictInsert, h, dictGet]
          · simp [dictInsert, h, dictGet, ih]

theorem dictGet_dictInsert_ne (d : PyDict) (k k' : PyKey) (v : MembershipRecord)
    (h : k ≠ k') : dictGet (dictInsert d k v) k' = dictGet d k' := by
  induction d with
  | nil => simp [dictInsert, dictGet, h]
  | cons hd t ih =>
      cases hd with
      | mk k0 v0 =>
          by_cases h0 : k0 = k
          · subst h0
            simp [dictInsert, dictGet, h]
          · simp [dictInsert, h0, dictGet, ih]

theorem dictInsert_of_get_none (d : PyDict) (k : PyKey) (v : MembershipRecord)
    (h : dictGet d k = none) : dictInsert d k v = d ++ [(k, v)] := by
  induction d with
  | nil => simp [dictInsert]
  | cons hd t ih =>
      cases hd with
      | mk k0 v0 =>
          by_cases h0 : k0 = k
          · simp [dictGet, h0] at h
          · simp [dictGet, h0] at h
            simp [dictInsert, h0, ih h]

theorem dictGet_eq_none_of_not_mem (d : PyDict) (k : PyKey)
    (h : k ∉ d.map Prod.fst) : dictGet d k = none := by
  induction d with
  | nil => rfl
  | cons hd t ih =>
      cases hd with
      | mk k0 v0 =>
          simp only [List.map_cons, List.mem_cons] at h
          push_neg at h
          have h0 : ¬(k0 = k) := fun hk => h.1 hk.symm
          simp [dictGet, h0, ih h.2]

theorem dictGet_dictErase_self (d : PyDict) (k : PyKey)
    (h : (d.map Prod.fst).Nodup) : dictGet (dictErase d k) k = none := by
  induction d with
  | nil => rfl
  | cons hd t ih =>
      cases hd with
      | mk k0 v0 =>
          simp only [List.map_cons, List.nodup_cons] at h
          by_cases h0 : k0 = k
          · subst h0
            simp [dictErase, dictGet_eq_none_of_not_mem t k0 h.1]
          · simp [dictErase, h0, dictGet, ih h.2]

theorem mem_keys_dictInsert (d : PyDict) (k k' : PyKey) (v : MembershipRecord)
    (h : k' ∈ (dictInsert d k v).map Prod.fst) :
    k' ∈ d.map Prod.fst ∨ k' = k := by
  induction d with
  | nil => simpa [dictInsert] using h
  | cons hd t ih =>
      cases hd with
      | mk k0 v0 =>
          by_cases h0 : k0 = k
          · subst h0
            simp [dictInsert] at h ⊢
            tauto
          · simp only [dictInsert, if_neg h0, List.map_cons, List.mem_cons] at h ⊢
            rcases h with h | h
            · exact Or.inl (Or.inl h)
            · rcases ih h with h1 | h1
              · exact Or.inl (Or.inr h1)
              · exact Or.inr h1

theorem keys_nodup_dictInsert (d : PyDict) (k : PyKey) (v : MembershipRecord)
    (h : (d.map Prod.fst).Nodup) : ((dictInsert d k v).map Prod.fst).Nodup := by
  induction d with
  | nil => simp [dictInsert]
  | cons hd t ih =>
      cases hd with
      | mk k0 v0 =>
          simp only [List.map_cons, List.nodup_cons] at h
          by_cases h0 : k0 = k
          · subst h0
            simpa [dictInsert] using
              ⟨fun x hx => h.1 (List.mem_map_of_mem Prod.fst hx), h.2⟩
          · simp only [dictInsert, if_neg h0, List.map_cons, List.nodup_cons]
            refine ⟨fun hmem => ?_, ih h.2⟩
            rcases mem_keys_dictInsert t k k0 v hmem with h1 | h1
            · exact h.1 h1
            · exact h0 h1

theorem loadObj_keys_nodup_aux (o : JsonObj) (acc : PyDict)
    (h : (acc.map Prod.fst).Nodup) :
    ((o.foldl (fun d kv => dictInsert d (PyKey.pstr kv.1) kv.2) acc).map
        Prod.fst).Nodup := by
  induction o generalizing acc with
  | nil => simpa using h
  | cons hd t ih =>
      simpa [List.foldl_cons] using
        ih (dictInsert acc (PyKey.pstr hd.1) hd.2) (keys_nodup_dictInsert acc _ hd.2 h)

/-- The invariant behind C10: whatever the file contains, the loaded store is
a mapping with at most one entry per key. -/
theorem loadUsers_keys_nodup (file : Option JsonObj) :
    ((load_users file).map Prod.fst).Nodup := by
  cases file with
  | none => simp [load_users]
  | some o => exact loadObj_keys_nodup_aux o [] (by simp)

/-- The value a JSON object associates with key `s` after duplicate-key
resolution: the value of the last entry whose key is `s`. -/
def lastVal : JsonObj → String → Option MembershipRecord
  | [], _ => none
  | (k, v) :: t, s => oor (lastVal t s) (if k = s then some v else none)

@[simp]
theorem oor_none_right {α : Type} (a : Option α) : oor a none = a := by
  cases a <;> rfl

theorem oor_assoc {α : Type} (a b c : Option α) :
    oor (oor a b) c = oor a (oor b c) := by
  cases a <;> simp

theorem lastVal_append (o₁ o₂ : JsonObj) (s : String) :
    lastVal (o₁ ++ o₂) s = oor (lastVal o₂ s) (lastVal o₁ s) := by
  induction o₁ with
  | nil => simp [lastVal]
  | cons hd t ih =>
      cases hd with
      | mk k v =>
          simp only [List.cons_append, lastVal, List.append_eq, ih, oor_assoc]

theorem dictGet_loadObj_foldl (o : JsonObj) (acc : PyDict) (s : String) :
    dictGet (o.foldl (fun d kv => dictInsert d (PyKey.pstr kv.1) kv.2) acc)
        (PyKey.pstr s)
      = oor (lastVal o s) (dictGet acc (PyKey.pstr s)) := by
  induction o generalizing acc with
  | nil => simp [lastVal]
  | cons hd t ih =>
      cases hd with
      | mk k v =>
          simp only [List.foldl_cons, lastVal, oor_assoc, ih]
          congr 1
          by_cases hk : k = s
          · subst hk
            simp
          · have : PyKey.pstr k ≠ PyKey.pstr s := by
              simpa using hk
            simp [dictGet_dictInsert_ne acc _ _ v this, hk]

/-- Looking a string key up in the reloaded store returns the value of the
last JSON entry carrying that key (later duplicates win). -/
theorem dictGet_loadObj (o : JsonObj) (s : String) :
    dictGet (loadObj o) (PyKey.pstr s) = lastVal o s := by
  have h := dictGet_loadObj_foldl o [] s
  simpa [loadObj, dictGet] using h

/-- Every key of a dict built by JSON parsing is a string key. -/
def onlyStrKeys (d : PyDict) : Prop :=
  ∀ kv ∈ d, ∃ s, kv.1 = PyKey.pstr s

theorem onlyStrKeys_dictInsert (d : PyDict) (s : String) (v : MembershipRecord)
    (h : onlyStrKeys d) : onlyStrKeys (dictInsert d (PyKey.pstr s) v) := by
  induction d with
  | nil =>
      intro kv hkv
      simp only [dictInsert, List.mem_singleton] at hkv
      exact ⟨s, by simp [hkv]⟩
  | cons hd t ih =>
      cases hd with
      | mk k0 v0 =>
          have h0 : onlyStrKeys t := fun kv hkv => h kv (List.mem_cons_of_mem _ hkv)
          by_cases hk : k0 = PyKey.pstr s
          · intro kv hkv
            simp only [dictInsert, if_pos hk, List.mem_cons] at hkv
            rcases hkv with hkv | hkv
            · exact ⟨s, by simp [hkv, hk]⟩
            · exact h0 kv hkv
          · intro kv hkv
            simp only [dictInsert, if_neg hk, List.mem_cons] at hkv
            rcases hkv with hkv | hkv
            · exact h (k0, v0) (by simp) |>.imp fun s hs => by simp [hkv, hs]
            · exact ih h0 kv hkv

theorem onlyStrKeys_loadObj_foldl (o : JsonObj) (acc : PyDict)
    (h : onlyStrKeys acc) :
    onlyStrKeys (o.foldl (fun d kv => dictInsert d (PyKey.pstr kv.1) kv.2) acc) := by
  induction o generalizing acc with
  | nil => exact h
  | cons hd t ih =>
      simpa [List.foldl_cons] using ih _ (onlyStrKeys_dictInsert acc hd.1 hd.2 h)

theorem onlyStrKeys_load_users (file : Option JsonObj) :
    onlyStrKeys (load_users file) := by
  cases file with
  | none => intro kv hkv; simp [load_users] at hkv
  | some o => exact onlyStrKeys_loadObj_foldl o [] (fun kv hkv => by simp at hkv)

/-- An integer key is never present in a dict that came from JSON parsing:
`users.get(user.id)` with an `int` id misses every stored record. -/
theorem dictGet_pint_of_onlyStrKeys (d : PyDict) (n : Int) (h : onlyStrKeys d) :
    dictGet d (PyKey.pint n) = none := by
  apply dictGet_eq_none_of_not_mem
  intro hmem
  rcases List.mem_map.mp hmem with ⟨kv, hkv, hfst⟩
  rcases h kv hkv with ⟨s, hs⟩
  rw [hs] at hfst
  exact PyKey.noConfusion hfst

/-- Loading the result of saving a dict whose stringified keys are fresh over
`acc` appends its entries: the generic step behind the round-trip theorem. -/
theorem loadObj_foldl_of_fresh (o : JsonObj) (acc : PyDict)
    (hnd : (o.map Prod.fst).Nodup)
    (hfresh : ∀ p ∈ o, dictGet acc (PyKey.pstr p.1) = none) :
    o.foldl (fun d kv => dictInsert d (PyKey.pstr kv.1) kv.2) acc
      = acc ++ o.map fun kv => (PyKey.pstr kv.1, kv.2) := by
  induction o generalizing acc with
  | nil => simp
  | cons hd t ih =>
      cases hd with
      | mk k v =>
          simp only [List.map_cons, List.nodup_cons] at hnd
          have hins : dictInsert acc (PyKey.pstr k) v = acc ++ [(PyKey.pstr k, v)] :=
            dictInsert_of_get_none acc _ v (hfresh (k, v) (by simp))
          have hfresh2 : ∀ p ∈ t, dictGet (acc ++ [(PyKey.pstr k, v)])
              (PyKey.pstr p.1) = none := by
            intro p hp
            rw [dictGet_append]
            have h1 : dictGet acc (PyKey.pstr p.1) = none :=
              hfresh p (List.mem_cons_of_mem _ hp)
            have h2 : ¬(k = p.1) := fun he =>
              hnd.1 (he ▸ List.mem_map_of_mem Prod.fst hp)
            have h3 : ¬(PyKey.pstr k = PyKey.pstr p.1) := by simpa using h2
            simp [h1, dictGet, h3]
          rw [List.foldl_cons, hins, ih _ hnd.2 hfresh2]
          simp

/-- The join branch of `track_chat_members` writes the record under the
integer key and saves (src/bot.py lines 81-88). -/
theorem track_join_file (file : Option JsonObj) (uid chat : Int) (now : ℚ)
    (banOk notifyOk : Bool) :
    (track_chat_members file ⟨uid, false, "left", "member", chat⟩ now banOk
        notifyOk).file
      = some (save_users
          (dictInsert (load_users file) (PyKey.pint uid)
            { join_time := now, chat_id := chat })) := by
  simp [track_chat_members]

/-- After appending an integer-keyed record and saving, reloading finds that
record under the stringified key, whatever came before it. -/
theorem dictGet_load_save_append (d : PyDict) (uid : Int) (r : MembershipRecord) :
    dictGet (load_users (some (save_users (d ++ [(PyKey.pint uid, r)]))))
        (PyKey.pstr (toString uid)) = some r := by
  show dictGet (loadObj (save_users (d ++ [(PyKey.pint uid, r)])))
      (PyKey.pstr (toString uid)) = some r
  rw [dictGet_loadObj]
  unfold save_users
  rw [List.map_append, lastVal_append]
  simp [lastVal, pyStr]

/-! ### The claims -/

/-- C1: the spec says a non-bot user who joins and then leaves within the
300-second window is banned, notified, and dropped from the store.  The code
does none of this: the join writes the record under the JSON key `"1"`, but
the leave handler looks up the integer `1`, finds nothing, and returns on the
unknown-leaver path.  Evaluated at the failing input (join at t = 0, leave at
t = 100, well inside the window, platform calls set to succeed): no ban call,
no notify call, and the record is still in the store. -/
theorem C1_quick_leaver_not_banned :
    (track_chat_members
        (track_chat_members (some []) ⟨1, false, "left", "member", 5⟩ 0 true
            true).file
        ⟨1, false, "member", "left", 5⟩ 100 true true).banCall = none
    ∧ (track_chat_members
        (track_chat_members (some []) ⟨1, false, "left", "member", 5⟩ 0 true
            true).file
        ⟨1, false, "member", "left", 5⟩ 100 true true).notifyCall = none
    ∧ dictGet
        (load_users
          (track_chat_members
            (track_chat_members (some []) ⟨1, false, "left", "member", 5⟩ 0
                true true).file
            ⟨1, false, "member", "left", 5⟩ 100 true true).file)
        (PyKey.pstr "1") = some { join_time := 0, chat_id := 5 } := by
  decide

/-- C2 (counterexample): save-then-load is not the identity.  Saving the
one-entry mapping with integer key `1` and reloading yields the mapping
keyed by the string `"1"`, not the mapping that was saved. -/
theorem C2_roundtrip_not_identity :
    load_users (some (save_users [(PyKey.pint 1, { join_time := 0, chat_id := 10 })]))
      ≠ [(PyKey.pint 1, { join_time := 0, chat_id := 10 })] := by
  decide

/-- C2 (amended): saving a mapping whose stringified keys are pairwise
distinct (any mapping keyed by distinct integer user ids qualifies) and
reloading returns the mapping with every key replaced by its JSON string
form and every value unchanged; in particular the empty mapping reloads as
empty, but integer keys come back as decimal strings, so the round trip is
not the identity on non-empty integer-keyed mappings. -/
theorem C2_roundtrip_stringifies_keys (users : PyDict)
    (h : (users.map fun kv => pyStr kv.1).Nodup) :
    load_users (some (save_users users))
      = users.map fun kv => (PyKey.pstr (pyStr kv.1), kv.2) := by
  have hnd : ((save_users users).map Prod.fst).Nodup := by
    simpa [save_users, List.map_map, Function.comp] using h
  have hfresh : ∀ p ∈ save_users users,
      dictGet ([] : PyDict) (PyKey.pstr p.1) = none := fun _ _ => rfl
  have hmain := loadObj_foldl_of_fresh (save_users users) [] hnd hfresh
  show loadObj (save_users users) = _
  rw [loadObj, hmain]
  simp [save_users, List.map_map, Function.comp]

/-- C2 witness: the amended round trip evaluated on a concrete two-entry
integer-keyed mapping. -/
theorem C2_roundtrip_stringifies_keys_witness :
    (([(PyKey.pint 1, ({ join_time := 0, chat_id := 10 } : MembershipRecord)),
        (PyKey.pint 2, { join_time := 7, chat_id := 11 })].map
          fun kv => pyStr kv.1).Nodup)
    ∧ load_users (some (save_users
          [(PyKey.pint 1, { join_time := 0, chat_id := 10 }),
           (PyKey.pint 2, { join_time := 7, chat_id := 11 })]))
        = [(PyKey.pstr "1", { join_time := 0, chat_id := 10 }),
           (PyKey.pstr "2", { join_time := 7, chat_id := 11 })] :=
  ⟨by decide,
    (C2_roundtrip_stringifies_keys
        [(PyKey.pint 1, { join_time := 0, chat_id := 10 }),
         (PyKey.pint 2, { join_time := 7, chat_id := 11 })]
        (by decide)).trans (by decide)⟩

/-- C3: when the leave evaluation finds a record for the leaver in the loaded
dict, it deletes the record and saves the shrunken store before the ban
decision: whatever the ban outcome `banOk` (in particular a failing ban), the
persisted object is exactly the store minus that record, and the deleted key
is gone from it. -/
theorem C3_cleanup_unconditional (users : PyDict) (uid : Int) (now : ℚ)
    (chat : Int) (record : MembershipRecord) (banOk notifyOk : Bool)
    (hnd : (users.map Prod.fst).Nodup)
    (h : dictGet users (PyKey.pint uid) = some record) :
    (evalLeave users uid now chat banOk notifyOk).written
        = some (save_users (dictErase users (PyKey.pint uid)))
    ∧ dictGet (dictErase users (PyKey.pint uid)) (PyKey.pint uid) = none := by
  refine ⟨?_, dictGet_dictErase_self users _ hnd⟩
  by_cases hc : now - record.join_time < BAN_TIME_SECONDS
  · by_cases hb : banOk <;> simp [evalLeave, h, hc, hb]
  · simp [evalLeave, h, hc]

/-- C3 witness: a tracked leaver at dwell 100 with a failing ban call; the
saved store is the emptied mapping and the record is gone. -/
theorem C3_cleanup_unconditional_witness :
    (([(PyKey.pint 1, ({ join_time := 0, chat_id := 5 } : MembershipRecord))].map
        Prod.fst).Nodup)
    ∧ dictGet [(PyKey.pint 1, ({ join_time := 0, chat_id := 5 } : MembershipRecord))]
        (PyKey.pint 1) = some { join_time := 0, chat_id := 5 }
    ∧ ((evalLeave [(PyKey.pint 1, { join_time := 0, chat_id := 5 })] 1 100 5
          false false).written
        = some (save_users
            (dictErase [(PyKey.pint 1, { join_time := 0, chat_id := 5 })]
              (PyKey.pint 1)))
      ∧ dictGet
          (dictErase [(PyKey.pint 1, { join_time := 0, chat_id := 5 })]
            (PyKey.pint 1)) (PyKey.pint 1) = none) :=
  ⟨by decide, by decide,
    C3_cleanup_unconditional
      [(PyKey.pint 1, { join_time := 0, chat_id := 5 })] 1 100 5
      { join_time := 0, chat_id := 5 } false false (by decide) (by decide)⟩

/-- C4: the spec asks that two leave events for two distinct tracked users
both end with their records absent, even serialized one after the other (the
best case the linearizability requirement is meant to guarantee).  The code
fails this without any interleaving: users 1 and 2 are tracked in the store
(under the string keys the join path writes), both leave events are
processed sequentially, and both records are still present afterwards,
because each lookup uses the integer id against string keys. -/
theorem C4_sequential_leaves_keep_both_records :
    (track_chat_members (some [("1", { join_time := 0, chat_id := 5 }),
          ("2", { join_time := 0, chat_id := 5 })])
        ⟨1, false, "member", "left", 5⟩ 60 true true).banCall = none
    ∧ (track_chat_members
        (track_chat_members (some [("1", { join_time := 0, chat_id := 5 }),
              ("2", { join_time := 0, chat_id := 5 })])
            ⟨1, false, "member", "left", 5⟩ 60 true true).file
        ⟨2, false, "member", "left", 5⟩ 60 true true).banCall = none
    ∧ dictGet
        (load_users
          (track_chat_members
            (track_chat_members (some [("1", { join_time := 0, chat_id := 5 }),
                  ("2", { join_time := 0, chat_id := 5 })])
                ⟨1, false, "member", "left", 5⟩ 60 true true).file
            ⟨2, false, "member", "left", 5⟩ 60 true true).file)
        (PyKey.pstr "1") = some { join_time := 0, chat_id := 5 }
    ∧ dictGet
        (load_users
          (track_chat_members
            (track_chat_members (some [("1", { join_time := 0, chat_id := 5 }),
                  ("2", { join_time := 0, chat_id := 5 })])
                ⟨1, false, "member", "left", 5⟩ 60 true true).file
            ⟨2, false, "member", "left", 5⟩ 60 true true).file)
        (PyKey.pstr "2") = some { join_time := 0, chat_id := 5 } := by
  decide

/-- C5: a tracked leaver whose dwell time is exactly the threshold
(`now - join_time = BAN_TIME_SECONDS`) is not banned and not notified: the
eligibility test `time_diff < BAN_TIME_SECONDS` is strict, so the boundary
falls on the no-ban side. -/
theorem C5_boundary_not_banned (users : PyDict) (uid : Int) (now : ℚ)
    (chat : Int) (record : MembershipRecord) (banOk notifyOk : Bool)
    (h : dictGet users (PyKey.pint uid) = some record)
    (he : now - record.join_time = BAN_TIME_SECONDS) :
    (evalLeave users uid now chat banOk notifyOk).banCall = none
    ∧ (evalLeave users uid now chat banOk notifyOk).notifyCall = none := by
  have hc : ¬(now - record.join_time < BAN_TIME_SECONDS) := by
    rw [he]
    exact lt_irrefl _
  simp [evalLeave, h, hc]

/-- C5 witness: join at 0, leave at exactly 300. -/
theorem C5_boundary_not_banned_witness :
    dictGet [(PyKey.pint 1, ({ join_time := 0, chat_id := 5 } : MembershipRecord))]
        (PyKey.pint 1) = some { join_time := 0, chat_id := 5 }
    ∧ (300 : ℚ) - (0 : ℚ) = BAN_TIME_SECONDS
    ∧ ((evalLeave [(PyKey.pint 1, { join_time := 0, chat_id := 5 })] 1 300 5
          true true).banCall = none
      ∧ (evalLeave [(PyKey.pint 1, { join_time := 0, chat_id := 5 })] 1 300 5
          true true).notifyCall = none) :=
  ⟨by decide, by norm_num [BAN_TIME_SECONDS],
    C5_boundary_not_banned [(PyKey.pint 1, { join_time := 0, chat_id := 5 })]
      1 300 5 { join_time := 0, chat_id := 5 } true true (by decide)
      (by norm_num [BAN_TIME_SECONDS])⟩

/-- C6: a `member` → `left` event for a non-bot user with no record in the
loaded store is a no-op: the file is left exactly as it was, no ban call, no
notify call, and no exception escapes the handler. -/
theorem C6_unknown_leaver_noop (file : Option JsonObj) (uid chat : Int)
    (now : ℚ) (banOk notifyOk : Bool)
    (h : dictGet (load_users file) (PyKey.pint uid) = none) :
    track_chat_members file ⟨uid, false, "member", "left", chat⟩ now banOk
        notifyOk
      = { file := file, storeAccessed := true, banCall := none,
          banSucceeded := false, notifyCall := none, notifySucceeded := false,
          raised := false } := by
  simp [track_chat_members, evalLeave, h]

/-- C6 witness: a leave against the empty store. -/
theorem C6_unknown_leaver_noop_witness :
    dictGet (load_users (some [])) (PyKey.pint 9) = none
    ∧ track_chat_members (some []) ⟨9, false, "member", "left", 5⟩ 50 true true
        = { file := some [], storeAccessed := true, banCall := none,
            banSucceeded := false, notifyCall := none,
            notifySucceeded := false, raised := false } :=
  ⟨by decide,
    C6_unknown_leaver_noop (some []) 9 5 50 true true (by decide)⟩

/-- C7: in a ban-eligible leave (record found, dwell under the threshold) the
ban call is always made with the event's chat and user, its outcome is the
platform's answer `banOk` whatever `notifyOk` is, the notify call is made
exactly when the ban succeeded, its outcome then being `notifyOk`, and no
exception leaves the handler in any of the four outcome combinations: the
shared `try` block runs notify only after a successful ban and the `except`
swallows every failure. -/
theorem C7_ban_then_notify (users : PyDict) (uid : Int) (now : ℚ) (chat : Int)
    (record : MembershipRecord) (banOk notifyOk : Bool)
    (h : dictGet users (PyKey.pint uid) = some record)
    (he : now - record.join_time < BAN_TIME_SECONDS) :
    (evalLeave users uid now chat banOk notifyOk).banCall = some (chat, uid)
    ∧ (evalLeave users uid now chat banOk notifyOk).banSucceeded = banOk
    ∧ (evalLeave users uid now chat banOk notifyOk).notifyCall
        = (if banOk then some uid else none)
    ∧ (evalLeave users uid now chat banOk notifyOk).notifySucceeded
        = (banOk && notifyOk)
    ∧ (evalLeave users uid now chat banOk notifyOk).raised = false := by
  by_cases hb : banOk <;> simp [evalLeave, h, he, hb]

/-- C7 witness: a ban-eligible leave where the ban succeeds but the notify
call fails. -/
theorem C7_ban_then_notify_witness :
    dictGet [(PyKey.pint 3, ({ join_time := 10, chat_id := 8 } : MembershipRecord))]
        (PyKey.pint 3) = some { join_time := 10, chat_id := 8 }
    ∧ (20 : ℚ) - ({ join_time := 10, chat_id := 8 } : MembershipRecord).join_time
        < BAN_TIME_SECONDS
    ∧ ((evalLeave [(PyKey.pint 3, { join_time := 10, chat_id := 8 })] 3 20 8
          true false).banCall = some (8, 3)
      ∧ (evalLeave [(PyKey.pint 3, { join_time := 10, chat_id := 8 })] 3 20 8
          true false).banSucceeded = true
      ∧ (evalLeave [(PyKey.pint 3, { join_time := 10, chat_id := 8 })] 3 20 8
          true false).notifyCall = (if true then some 3 else none)
      ∧ (evalLeave [(PyKey.pint 3, { join_time := 10, chat_id := 8 })] 3 20 8
          true false).notifySucceeded = (true && false)
      ∧ (evalLeave [(PyKey.pint 3, { join_time := 10, chat_id := 8 })] 3 20 8
          true false).raised = false) :=
  ⟨by decide, by norm_num [BAN_TIME_SECONDS],
    C7_ban_then_notify [(PyKey.pint 3, { join_time := 10, chat_id := 8 })] 3 20
      8 { join_time := 10, chat_id := 8 } true false (by decide)
      (by norm_num [BAN_TIME_SECONDS])⟩

/-- C8 (counterexample): a removal — the `member` → `kicked` transition — is
not evaluated.  User 7 is tracked in the store and the removal happens at
dwell 10, far inside the window, yet the handler takes the irrelevant-status
branch: the store is never read, the record is not cleared, and no ban
happens, contradicting the claim that every way of ceasing to be a member is
evaluated by the leave contract. -/
theorem C8_kicked_not_evaluated :
    track_chat_members (some [("7", { join_time := 0, chat_id := 5 })])
        ⟨7, false, "member", "kicked", 5⟩ 10 true true
      = { file := some [("7", { join_time := 0, chat_id := 5 })],
          storeAccessed := false, banCall := none, banSucceeded := false,
          notifyCall := none, notifySucceeded := false, raised := false } := by
  decide

/-- C8 (amended): only the voluntary form of leaving, the `member` → `left`
transition, reaches the leave evaluation; a removal (`member` → `kicked`)
is ignored wholesale — store untouched and unread, no ban, no notify.  For
`member` → `left` the handler consults the store and behaves exactly as the
leave evaluation on the loaded dict dictates. -/
theorem C8_only_left_transition_evaluated (file : Option JsonObj)
    (uid chat : Int) (now : ℚ) (banOk notifyOk : Bool) :
    track_chat_members file ⟨uid, false, "member", "kicked", chat⟩ now banOk
        notifyOk
      = { file := file, storeAccessed := false, banCall := none,
          banSucceeded := false, notifyCall := none, notifySucceeded := false,
          raised := false }
    ∧ (track_chat_members file ⟨uid, false, "member", "left", chat⟩ now banOk
        notifyOk).storeAccessed = true
    ∧ (track_chat_members file ⟨uid, false, "member", "left", chat⟩ now banOk
        notifyOk).banCall
        = (evalLeave (load_users file) uid now chat banOk notifyOk).banCall
    ∧ (track_chat_members file ⟨uid, false, "member", "left", chat⟩ now banOk
        notifyOk).file
        = ((evalLeave (load_users file) uid now chat banOk notifyOk).written).elim
            file some := by
  refine ⟨?_, ?_, ?_, ?_⟩ <;> simp [track_chat_members]

/-- C9: an event whose user is a bot is ignored before anything happens: the
store is neither read nor written and neither platform call is made, for
join-shaped, leave-shaped, and irrelevant transitions alike. -/
theorem C9_bot_events_ignored (file : Option JsonObj) (ev : ChatMemberEvent)
    (now : ℚ) (banOk notifyOk : Bool) (h : ev.is_bot = true) :
    track_chat_members file ev now banOk notifyOk
      = { file := file, storeAccessed := false, banCall := none,
          banSucceeded := false, notifyCall := none, notifySucceeded := false,
          raised := false } := by
  simp [track_chat_members, h]

/-- C9 witness: a bot join-shaped event against a non-empty store. -/
theorem C9_bot_events_ignored_witness :
    (({ user_id := 4, is_bot := true, old_status := "left",
        new_status := "member", chat_id := 5 } : ChatMemberEvent).is_bot = true)
    ∧ track_chat_members (some [("1", { join_time := 0, chat_id := 5 })])
        { user_id := 4, is_bot := true, old_status := "left",
          new_status := "member", chat_id := 5 } 30 true true
        = { file := some [("1", { join_time := 0, chat_id := 5 })],
            storeAccessed := false, banCall := none, banSucceeded := false,
            notifyCall := none, notifySucceeded := false, raised := false } :=
  ⟨by decide,
    C9_bot_events_ignored (some [("1", { join_time := 0, chat_id := 5 })])
      { user_id := 4, is_bot := true, old_status := "left",
        new_status := "member", chat_id := 5 } 30 true true (by decide)⟩

/-- C10: the store as loaded always binds each key at most once, whatever
file any sequence of operations produced (second conjunct instantiates this
for the state left by any single handler invocation); and the store is keyed
by user id alone: a second join by the same user — even into a different
chat — overwrites the first record, so after two joins the reloaded store
holds the second join time and chat id under that user's key (last join
wins). -/
theorem C10_one_record_per_user :
    (∀ file : Option JsonObj, ((load_users file).map Prod.fst).Nodup)
    ∧ (∀ (file : Option JsonObj) (ev : ChatMemberEvent) (now : ℚ)
        (banOk notifyOk : Bool),
        ((load_users
            (track_chat_members file ev now banOk notifyOk).file).map
          Prod.fst).Nodup)
    ∧ (∀ (file : Option JsonObj) (uid c1 c2 : Int) (t1 t2 : ℚ)
        (banOk notifyOk : Bool),
        dictGet
          (load_users
            (track_chat_members
              (track_chat_members file ⟨uid, false, "left", "member", c1⟩ t1
                  banOk notifyOk).file
              ⟨uid, false, "left", "member", c2⟩ t2 banOk notifyOk).file)
          (PyKey.pstr (toString uid))
        = some { join_time := t2, chat_id := c2 }) := by
  refine ⟨loadUsers_keys_nodup, fun file ev now b n => loadUsers_keys_nodup _,
    fun file uid c1 c2 t1 t2 banOk notifyOk => ?_⟩
  rw [track_join_file, track_join_file]
  have honly :=
    onlyStrKeys_load_users
      (some (save_users
        (dictInsert (load_users file) (PyKey.pint uid)
          { join_time := t1, chat_id := c1 })))
  rw [dictInsert_of_get_none _ _ _ (dictGet_pint_of_onlyStrKeys _ uid honly)]
  exact dictGet_load_save_append _ uid _

end WhoLeave
